import Mathlib

/-!
Verification of the timeline-layout core of `src/app.py`
(`create_video_from_images` and the upload-staging button handler).

Durations are embedded as exact rationals (`ℚ`); the Python code uses
floats, and the spec allows a 1e-6s tolerance, so exact equalities here
are the strongest form of the claimed identities.

Python-specific behaviour that the shallow embedding must keep:
* `num_images` is `len(image_paths)`, a natural number; the expression
  `(num_images - 1) * transition_duration` is evaluated over Python
  integers, so for `num_images = 0` it is `-transition_duration`
  (hence the cast through `ℤ` below).
* `x / num_images` with `num_images = 0` raises `ZeroDivisionError`
  ("float division by zero"), which the function's `except Exception`
  handler catches, reporting a message and returning `None`.  Rational
  division in Lean instead returns `0`, so the zero divisor is tested
  explicitly and routed to the caught-exception outcome.
* every other exception in the body (in particular any MoviePy
  backend failure while rendering/encoding) is caught by the same
  handler; the backend is abstracted as an oracle saying whether the
  rendering calls raise, and with which message.
-/

namespace MusicVideo

/-- Whether the MoviePy rendering backend raises during the clip
construction / concatenation / encoding calls, and with which message. -/
inductive Backend where
  | ok : Backend
  | raises : String → Backend
deriving DecidableEq, Repr

/-- The overlay placed on top of a base image clip inside a dissolve
composite: `next_clip.set_start(single_image_duration)
.set_duration(transition_duration).crossfadein(transition_duration)`. -/
structure Overlay where
  image_index : ℕ
  start : ℚ
  duration : ℚ
  crossfade : ℚ
deriving DecidableEq, Repr

/-- A clip appended to the `clips` list in the loop of
`create_video_from_images`: either a plain image-hold clip (the last
image) or a `CompositeVideoClip` of the current image and the incoming
next image, with total duration forced by `.set_duration(...)`. -/
inductive Clip where
  | plain : (image_index : ℕ) → (duration : ℚ) → Clip
  | composite : (base_index : ℕ) → (base_duration : ℚ) →
      (overlay : Overlay) → (set_duration : ℚ) → Clip
deriving DecidableEq, Repr

/-- The on-screen duration a clip contributes to concatenation:
a plain clip's own duration, or the composite's `set_duration`. -/
def clipDuration : Clip → ℚ
  | .plain _ d => d
  | .composite _ _ _ d => d

/-- Observable processing steps of `create_video_from_images`, used to
state that planner failures happen before any rendering work. -/
inductive Action where
  | readAudio : Action
  | buildClip : ℕ → Action
  | concat : Action
  | fadein : Action
  | fadeout : Action
  | setAudio : Action
  | write : Action
deriving DecidableEq, Repr

/-- Outcome of `create_video_from_images`: the two planner failures,
the caught-exception path (the function returns `None` after
`st.error`), or success with the built clip list. -/
inductive VideoResult where
  | audioTooShort : VideoResult
  | tooManyImages : VideoResult
  | renderError : String → VideoResult
  | success : List Clip → VideoResult
deriving DecidableEq, Repr

/-- `effective_video_duration = total_audio_duration - fade_in_duration
- fade_out_duration` from `src/app.py`. -/
def effective_video_duration (total_audio_duration fade_in_duration fade_out_duration : ℚ) : ℚ :=
  total_audio_duration - fade_in_duration - fade_out_duration

/-- `total_transition_time = (num_images - 1) * transition_duration`
over Python integers (so `-transition_duration` when `num_images = 0`). -/
def total_transition_time (num_images : ℕ) (transition_duration : ℚ) : ℚ :=
  ((num_images : ℤ) - 1) * transition_duration

/-- `single_image_duration = (effective_video_duration -
total_transition_time) / num_images` from `src/app.py`. -/
def single_image_duration (num_images : ℕ)
    (total_audio_duration transition_duration fade_in_duration fade_out_duration : ℚ) : ℚ :=
  (effective_video_duration total_audio_duration fade_in_duration fade_out_duration -
    total_transition_time num_images transition_duration) / (num_images : ℚ)

/-- The clip-building loop: for `i < num_images - 1` a dissolve
composite of image `i` (shown for `sid`) and image `i+1` (starting at
`sid`, lasting `td`, crossfading in), with total duration
`sid + td`; for the last index a plain clip of duration `sid`. -/
def buildClips (num_images : ℕ) (sid td : ℚ) : List Clip :=
  (List.range num_images).map (fun i =>
    if i < num_images - 1 then
      Clip.composite i sid ⟨i + 1, sid, td, td⟩ (sid + td)
    else
      Clip.plain i sid)

/-- The header of the message shown by the `except` handler:
`st.error(f"비디오 생성 중 오류가 발생했습니다: \x7be\x7d")`. -/
def errorHeader : String := "비디오 생성 중 오류가 발생했습니다: "

/-- The full action trace of a run that reaches the rendering calls:
clip building for each image, concatenation, the two fades, audio
attachment, and the `write_videofile` encode. -/
def fullTrace (num_images : ℕ) : List Action :=
  [Action.readAudio] ++ (List.range num_images).map Action.buildClip ++
    [Action.concat, Action.fadein, Action.fadeout, Action.setAudio, Action.write]

/-- Shallow embedding of `create_video_from_images` from `src/app.py`.
Returns the outcome together with the trace of processing actions
performed.  The `num_images = 0` branch models the Python
`ZeroDivisionError` raised by the `single_image_duration` division and
caught by the function's exception handler. -/
def create_video_from_images (backend : Backend) (num_images : ℕ)
    (total_audio_duration transition_duration fade_in_duration fade_out_duration : ℚ) :
    VideoResult × List Action :=
  let tr0 : List Action := [Action.readAudio]
  let effective := effective_video_duration total_audio_duration fade_in_duration fade_out_duration
  if effective ≤ 0 then
    (VideoResult.audioTooShort, tr0)
  else if num_images = 0 then
    (VideoResult.renderError (errorHeader ++ "float division by zero"), tr0)
  else
    let sid := single_image_duration num_images total_audio_duration transition_duration
      fade_in_duration fade_out_duration
    if sid ≤ 0 then
      (VideoResult.tooManyImages, tr0)
    else
      let clips := buildClips num_images sid transition_duration
      match backend with
      | Backend.ok => (VideoResult.success clips, fullTrace num_images)
      | Backend.raises msg => (VideoResult.renderError (errorHeader ++ msg), fullTrace num_images)

/-- The exposure (image-shown-alone) duration of each clip: a plain
clip's full duration, or a composite's base-image duration before the
overlay starts. -/
def exposureDurations (clips : List Clip) : List ℚ :=
  clips.map (fun c =>
    match c with
    | .plain _ d => d
    | .composite _ bd _ _ => bd)

/-- The transition (dissolve-overlay) durations contributed by the
clips: one per composite, none for a plain clip. -/
def transitionDurations (clips : List Clip) : List ℚ :=
  clips.filterMap (fun c =>
    match c with
    | .plain _ _ => none
    | .composite _ _ ov _ => some ov.duration)

/-- `concatenate_videoclips(clips, method="compose")` places the clips
one after another, so its duration is the sum of the clip durations. -/
def concatDuration (clips : List Clip) : ℚ :=
  (clips.map clipDuration).sum

end MusicVideo

namespace MusicVideo

lemma buildClips_succ (m : ℕ) (s t : ℚ) :
    buildClips (m + 1) s t =
      (List.range m).map (fun i => Clip.composite i s ⟨i + 1, s, t, t⟩ (s + t)) ++
        [Clip.plain m s] := by
  unfold buildClips
  rw [List.range_succ, List.map_append]
  congr 1
  · apply List.map_congr_left
    intro i hi
    rw [List.mem_range] at hi
    simp [Nat.add_sub_cancel, hi]
  · simp

lemma buildClips_length (n : ℕ) (s t : ℚ) : (buildClips n s t).length = n := by
  simp [buildClips]

lemma exposureDurations_buildClips (m : ℕ) (s t : ℚ) :
    exposureDurations (buildClips (m + 1) s t) = List.replicate (m + 1) s := by
  rw [buildClips_succ]
  unfold exposureDurations
  rw [List.map_append, List.map_map, List.replicate_succ']
  have h1 : ((fun c => match c with
      | Clip.plain _ d => d
      | Clip.composite _ bd _ _ => bd) ∘
      (fun i => Clip.composite i s ⟨i + 1, s, t, t⟩ (s + t))) = fun _ => s := rfl
  rw [h1, List.map_const', List.length_range]
  rfl

lemma transitionDurations_buildClips (m : ℕ) (s t : ℚ) :
    transitionDurations (buildClips (m + 1) s t) = List.replicate m t := by
  rw [buildClips_succ]
  unfold transitionDurations
  rw [List.filterMap_append]
  have h1 : List.filterMap (fun c => match c with
      | Clip.plain _ _ => none
      | Clip.composite _ _ ov _ => some ov.duration)
      ((List.range m).map (fun i => Clip.composite i s ⟨i + 1, s, t, t⟩ (s + t))) =
      List.replicate m t := by
    rw [List.filterMap_map]
    have h2 : ((fun c => match c with
        | Clip.plain _ _ => none
        | Clip.composite _ _ ov _ => some ov.duration) ∘
        (fun i => Clip.composite i s ⟨i + 1, s, t, t⟩ (s + t))) =
        some ∘ (fun _ => t) := rfl
    rw [h2, List.filterMap_eq_map, List.map_const', List.length_range]
  rw [h1]
  simp

lemma sum_replicate_rat (k : ℕ) (x : ℚ) : (List.replicate k x).sum = (k : ℚ) * x := by
  rw [List.sum_replicate, nsmul_eq_mul]

end MusicVideo

namespace MusicVideo

lemma create_audioTooShort (backend : Backend) (n : ℕ) (a t fi fo : ℚ)
    (he : effective_video_duration a fi fo ≤ 0) :
    create_video_from_images backend n a t fi fo =
      (VideoResult.audioTooShort, [Action.readAudio]) := by
  simp [create_video_from_images, he]

lemma create_zero_images (backend : Backend) (a t fi fo : ℚ)
    (he : 0 < effective_video_duration a fi fo) :
    create_video_from_images backend 0 a t fi fo =
      (VideoResult.renderError (errorHeader ++ "float division by zero"),
       [Action.readAudio]) := by
  simp [create_video_from_images, he.not_le]

lemma create_tooManyImages (backend : Backend) (n : ℕ) (a t fi fo : ℚ)
    (hn : n ≠ 0) (he : 0 < effective_video_duration a fi fo)
    (hs : single_image_duration n a t fi fo ≤ 0) :
    create_video_from_images backend n a t fi fo =
      (VideoResult.tooManyImages, [Action.readAudio]) := by
  simp [create_video_from_images, he.not_le, hn, hs]

lemma create_success (n : ℕ) (a t fi fo : ℚ)
    (hn : n ≠ 0) (he : 0 < effective_video_duration a fi fo)
    (hs : 0 < single_image_duration n a t fi fo) :
    create_video_from_images Backend.ok n a t fi fo =
      (VideoResult.success (buildClips n (single_image_duration n a t fi fo) t),
       fullTrace n) := by
  simp [create_video_from_images, he.not_le, hn, hs.not_le]

lemma create_raises (msg : String) (n : ℕ) (a t fi fo : ℚ)
    (hn : n ≠ 0) (he : 0 < effective_video_duration a fi fo)
    (hs : 0 < single_image_duration n a t fi fo) :
    create_video_from_images (Backend.raises msg) n a t fi fo =
      (VideoResult.renderError (errorHeader ++ msg), fullTrace n) := by
  simp [create_video_from_images, he.not_le, hn, hs.not_le]

lemma success_inv {backend : Backend} {n : ℕ} {a t fi fo : ℚ}
    {clips : List Clip} {tr : List Action}
    (h : create_video_from_images backend n a t fi fo = (VideoResult.success clips, tr)) :
    backend = Backend.ok ∧ n ≠ 0 ∧ 0 < effective_video_duration a fi fo ∧
      0 < single_image_duration n a t fi fo ∧
      clips = buildClips n (single_image_duration n a t fi fo) t ∧ tr = fullTrace n := by
  by_cases he : effective_video_duration a fi fo ≤ 0
  · rw [create_audioTooShort backend n a t fi fo he] at h
    simp at h
  push_neg at he
  by_cases hn : n = 0
  · subst hn
    rw [create_zero_images backend a t fi fo he] at h
    simp at h
  by_cases hs : single_image_duration n a t fi fo ≤ 0
  · rw [create_tooManyImages backend n a t fi fo hn he hs] at h
    simp at h
  push_neg at hs
  cases backend with
  | ok =>
    rw [create_success n a t fi fo hn he hs] at h
    simp only [Prod.mk.injEq, VideoResult.success.injEq] at h
    exact ⟨rfl, hn, he, hs, h.1.symm, h.2.symm⟩
  | raises msg =>
    rw [create_raises msg n a t fi fo hn he hs] at h
    simp at h

lemma mul_single_image_duration (n : ℕ) (hn : n ≠ 0) (a t fi fo : ℚ) :
    (n : ℚ) * single_image_duration n a t fi fo =
      effective_video_duration a fi fo - ((n : ℚ) - 1) * t := by
  unfold single_image_duration total_transition_time
  have hn' : (n : ℚ) ≠ 0 := Nat.cast_ne_zero.mpr hn
  rw [mul_comm, div_mul_cancel₀ _ hn']
  push_cast
  ring

end MusicVideo

namespace MusicVideo

lemma concatDuration_buildClips (m : ℕ) (s t : ℚ) :
    concatDuration (buildClips (m + 1) s t) = ((m : ℚ) + 1) * s + (m : ℚ) * t := by
  rw [buildClips_succ]
  unfold concatDuration
  rw [List.map_append, List.sum_append, List.map_map]
  have h1 : (clipDuration ∘ fun i => Clip.composite i s ⟨i + 1, s, t, t⟩ (s + t)) =
      fun _ => s + t := rfl
  rw [h1, List.map_const', List.length_range, sum_replicate_rat]
  simp [clipDuration]
  ring

lemma create_cases (backend : Backend) (n : ℕ) (a t fi fo : ℚ) :
    (effective_video_duration a fi fo ≤ 0 ∧
      create_video_from_images backend n a t fi fo =
        (VideoResult.audioTooShort, [Action.readAudio])) ∨
    (0 < effective_video_duration a fi fo ∧ n = 0 ∧
      create_video_from_images backend n a t fi fo =
        (VideoResult.renderError (errorHeader ++ "float division by zero"),
         [Action.readAudio])) ∨
    (0 < effective_video_duration a fi fo ∧ n ≠ 0 ∧
      single_image_duration n a t fi fo ≤ 0 ∧
      create_video_from_images backend n a t fi fo =
        (VideoResult.tooManyImages, [Action.readAudio])) ∨
    (0 < effective_video_duration a fi fo ∧ n ≠ 0 ∧
      0 < single_image_duration n a t fi fo ∧ backend = Backend.ok ∧
      create_video_from_images backend n a t fi fo =
        (VideoResult.success (buildClips n (single_image_duration n a t fi fo) t),
         fullTrace n)) ∨
    (0 < effective_video_duration a fi fo ∧ n ≠ 0 ∧
      0 < single_image_duration n a t fi fo ∧
      ∃ msg, backend = Backend.raises msg ∧
        create_video_from_images backend n a t fi fo =
          (VideoResult.renderError (errorHeader ++ msg), fullTrace n)) := by
  by_cases he : effective_video_duration a fi fo ≤ 0
  · exact Or.inl ⟨he, create_audioTooShort backend n a t fi fo he⟩
  push_neg at he
  by_cases hn : n = 0
  · subst hn
    exact Or.inr (Or.inl ⟨he, rfl, create_zero_images backend a t fi fo he⟩)
  by_cases hs : single_image_duration n a t fi fo ≤ 0
  · exact Or.inr (Or.inr (Or.inl ⟨he, hn, hs, create_tooManyImages backend n a t fi fo hn he hs⟩))
  push_neg at hs
  cases backend with
  | ok =>
    exact Or.inr (Or.inr (Or.inr (Or.inl ⟨he, hn, hs, rfl, create_success n a t fi fo hn he hs⟩)))
  | raises msg =>
    exact Or.inr (Or.inr (Or.inr (Or.inr ⟨he, hn, hs, msg, rfl,
      create_raises msg n a t fi fo hn he hs⟩)))

/-- C1: duration conservation.  For every `image_count ≥ 1`, audio
duration with positive effective duration, and effect durations making
`single_image_duration` positive, the run succeeds and the sum of the
`N` exposure-segment durations plus the `N - 1` transition-segment
durations of the built clips equals exactly
`audio_duration - fade_in_duration - fade_out_duration`. -/
theorem duration_conservation (n : ℕ) (a t fi fo : ℚ) (hn : 1 ≤ n)
    (he : 0 < a - fi - fo)
    (hs : 0 < single_image_duration n a t fi fo) :
    ∃ clips, create_video_from_images Backend.ok n a t fi fo =
      (VideoResult.success clips, fullTrace n) ∧
      (exposureDurations clips).sum + (transitionDurations clips).sum = a - fi - fo := by
  have hn0 : n ≠ 0 := by omega
  refine ⟨buildClips n (single_image_duration n a t fi fo) t,
    create_success n a t fi fo hn0 he hs, ?_⟩
  obtain ⟨m, rfl⟩ : ∃ m, n = m + 1 := ⟨n - 1, by omega⟩
  rw [exposureDurations_buildClips, transitionDurations_buildClips,
    sum_replicate_rat, sum_replicate_rat]
  have h1 := mul_single_image_duration (m + 1) hn0 a t fi fo
  rw [h1]
  unfold effective_video_duration
  push_cast
  ring

/-- C1 witness: the spec's concrete scenario `image_count = 3`,
`audio_duration = 10`, all effect durations `1`: sums to `8`. -/
theorem duration_conservation_witness :
    ∃ clips, create_video_from_images Backend.ok 3 10 1 1 1 =
      (VideoResult.success clips, fullTrace 3) ∧
      (exposureDurations clips).sum + (transitionDurations clips).sum = 10 - 1 - 1 :=
  duration_conservation 3 10 1 1 1 (by norm_num) (by norm_num)
    (by norm_num [single_image_duration, effective_video_duration, total_transition_time])

/-- C2 counterexample: at `image_count = 3`, `audio_duration = 10`,
all effect durations `1`, the run succeeds with clips of durations
`3, 3, 2`, whose concatenation lasts `8` seconds — the effective
duration — not `10 = audio - fade_in - fade_out + (N - 1) *
transition` as the claim states. -/
theorem concat_duration_cex :
    (create_video_from_images Backend.ok 3 10 1 1 1).1 =
      VideoResult.success
        [Clip.composite 0 2 ⟨1, 2, 1, 1⟩ 3, Clip.composite 1 2 ⟨2, 2, 1, 1⟩ 3,
         Clip.plain 2 2] ∧
    concatDuration
        [Clip.composite 0 2 ⟨1, 2, 1, 1⟩ 3, Clip.composite 1 2 ⟨2, 2, 1, 1⟩ 3,
         Clip.plain 2 2] = 8 ∧
    (8 : ℚ) ≠ 10 - 1 - 1 + ((3 : ℚ) - 1) * 1 := by
  refine ⟨?_, ?_, by norm_num⟩
  · norm_num [create_video_from_images, single_image_duration, effective_video_duration,
      total_transition_time, buildClips, List.range_succ]
  · norm_num [concatDuration, clipDuration]

/-- C2 amended: concatenating the built clips in plan order (the first
`N - 1` of duration `single_image_duration + transition_duration`, the
last of duration `single_image_duration`; concatenation sums clip
durations) yields total duration equal to the effective duration
`audio_duration - fade_in_duration - fade_out_duration`, with no extra
`(N - 1) * transition_duration` term. -/
theorem concat_total_duration (n : ℕ) (a t fi fo : ℚ) (hn : 1 ≤ n)
    (he : 0 < a - fi - fo)
    (hs : 0 < single_image_duration n a t fi fo) :
    ∃ clips, create_video_from_images Backend.ok n a t fi fo =
      (VideoResult.success clips, fullTrace n) ∧
      concatDuration clips = a - fi - fo := by
  have hn0 : n ≠ 0 := by omega
  refine ⟨buildClips n (single_image_duration n a t fi fo) t,
    create_success n a t fi fo hn0 he hs, ?_⟩
  obtain ⟨m, rfl⟩ : ∃ m, n = m + 1 := ⟨n - 1, by omega⟩
  rw [concatDuration_buildClips]
  have h1 := mul_single_image_duration (m + 1) hn0 a t fi fo
  have h2 : ((m : ℚ) + 1) * single_image_duration (m + 1) a t fi fo =
      effective_video_duration a fi fo - (((m + 1 : ℕ) : ℚ) - 1) * t := by
    rw [← h1]; push_cast; ring
  rw [h2]
  unfold effective_video_duration
  push_cast
  ring

/-- C2 amended witness: the `3`-image, `10`-second scenario
concatenates to exactly `8` seconds. -/
theorem concat_total_duration_witness :
    ∃ clips, create_video_from_images Backend.ok 3 10 1 1 1 =
      (VideoResult.success clips, fullTrace 3) ∧
      concatDuration clips = 10 - 1 - 1 :=
  concat_total_duration 3 10 1 1 1 (by norm_num) (by norm_num)
    (by norm_num [single_image_duration, effective_video_duration, total_transition_time])

end MusicVideo

namespace MusicVideo

/-- C3: the run fails with `AudioTooShort` (returning `None` after
reporting, with only the audio-duration read performed and no
rendering work) if and only if
`audio_duration - fade_in_duration - fade_out_duration ≤ 0`; this
holds for every backend and every image count (including `0`), the
check coming before the `TooManyImages` check. -/
theorem audioTooShort_boundary (backend : Backend) (n : ℕ) (a t fi fo : ℚ) :
    ((create_video_from_images backend n a t fi fo).1 = VideoResult.audioTooShort ↔
      a - fi - fo ≤ 0) ∧
    (a - fi - fo ≤ 0 →
      create_video_from_images backend n a t fi fo =
        (VideoResult.audioTooShort, [Action.readAudio])) := by
  have hcase := create_cases backend n a t fi fo
  constructor
  · constructor
    · intro h
      rcases hcase with ⟨he, -⟩ | ⟨-, -, heq⟩ | ⟨-, -, -, heq⟩ | ⟨-, -, -, -, heq⟩ |
          ⟨-, -, -, msg, -, heq⟩
      · exact he
      all_goals rw [heq] at h; simp at h
    · intro he
      rw [create_audioTooShort backend n a t fi fo he]
  · intro he
    exact create_audioTooShort backend n a t fi fo he

/-- C3 witness: the spec's concrete scenario `image_count = 2`,
`audio_duration = 2`, fades `1` each: effective duration `0`, so the
run reports `AudioTooShort` having done no rendering work. -/
theorem audioTooShort_boundary_witness :
    create_video_from_images Backend.ok 2 2 1 1 1 =
      (VideoResult.audioTooShort, [Action.readAudio]) :=
  (audioTooShort_boundary Backend.ok 2 2 1 1 1).2 (by norm_num)

/-- C5: single-image degeneracy.  With `image_count = 1` and positive
effective duration, the run succeeds with exactly one plain exposure
clip of duration `audio_duration - fade_in_duration -
fade_out_duration` — no dissolve composite (hence no reference to a
non-existent next image), one exposure segment of that length, and
zero transition segments. -/
theorem single_image_degeneracy (a t fi fo : ℚ) (he : 0 < a - fi - fo) :
    create_video_from_images Backend.ok 1 a t fi fo =
      (VideoResult.success [Clip.plain 0 (a - fi - fo)], fullTrace 1) ∧
    exposureDurations [Clip.plain 0 (a - fi - fo)] = [a - fi - fo] ∧
    transitionDurations [Clip.plain 0 (a - fi - fo)] = [] := by
  have hsid : single_image_duration 1 a t fi fo = a - fi - fo := by
    unfold single_image_duration total_transition_time effective_video_duration
    norm_num
  refine ⟨?_, by simp [exposureDurations], by simp [transitionDurations]⟩
  rw [create_success 1 a t fi fo one_ne_zero he (by rw [hsid]; exact he)]
  rw [show (1 : ℕ) = 0 + 1 from rfl, buildClips_succ, hsid]
  simp

/-- C5 witness: one image over a `10`-second audio with unit effects
gives a single `8`-second plain clip and no transitions. -/
theorem single_image_degeneracy_witness :
    create_video_from_images Backend.ok 1 10 1 1 1 =
      (VideoResult.success [Clip.plain 0 (10 - 1 - 1)], fullTrace 1) ∧
    exposureDurations [Clip.plain 0 (10 - 1 - 1)] = [10 - 1 - 1] ∧
    transitionDurations [Clip.plain 0 (10 - 1 - 1)] = [] :=
  single_image_degeneracy 10 1 1 1 (by norm_num)

/-- C10: calling the function directly with an empty image list and an
audio longer than the two fades hits the planner's division by zero;
the modelled `ZeroDivisionError` is caught by the function's handler,
so the call returns the generic render-error message (not
`TooManyImages`, not `AudioTooShort`), for every backend. -/
theorem empty_batch_divide_by_zero (backend : Backend) (a t fi fo : ℚ)
    (he : 0 < a - fi - fo) :
    create_video_from_images backend 0 a t fi fo =
      (VideoResult.renderError (errorHeader ++ "float division by zero"),
       [Action.readAudio]) ∧
    (create_video_from_images backend 0 a t fi fo).1 ≠ VideoResult.tooManyImages ∧
    (create_video_from_images backend 0 a t fi fo).1 ≠ VideoResult.audioTooShort := by
  have h := create_zero_images backend a t fi fo he
  refine ⟨h, ?_, ?_⟩ <;> rw [h] <;> simp

/-- C10 witness: an empty batch over a `10`-second audio with unit
effects yields the caught division-by-zero render error. -/
theorem empty_batch_divide_by_zero_witness :
    create_video_from_images Backend.ok 0 10 1 1 1 =
      (VideoResult.renderError (errorHeader ++ "float division by zero"),
       [Action.readAudio]) ∧
    (create_video_from_images Backend.ok 0 10 1 1 1).1 ≠ VideoResult.tooManyImages ∧
    (create_video_from_images Backend.ok 0 10 1 1 1).1 ≠ VideoResult.audioTooShort :=
  empty_batch_divide_by_zero Backend.ok 10 1 1 1 (by norm_num)

end MusicVideo

namespace MusicVideo

lemma buildClips_getElem_lt (m i : ℕ) (s t : ℚ) (hi : i < m) :
    (buildClips (m + 1) s t)[i]? =
      some (Clip.composite i s ⟨i + 1, s, t, t⟩ (s + t)) := by
  rw [buildClips_succ]
  rw [List.getElem?_append_left (by simpa using hi)]
  rw [List.getElem?_map, List.getElem?_range hi]
  rfl

lemma buildClips_getElem_last (m : ℕ) (s t : ℚ) :
    (buildClips (m + 1) s t)[m]? = some (Clip.plain m s) := by
  rw [buildClips_succ]
  have hlen : ((List.range m).map fun i =>
      Clip.composite i s ⟨i + 1, s, t, t⟩ (s + t)).length = m := by simp
  rw [List.getElem?_append_right (le_of_eq hlen), hlen]
  simp

/-- C6: segment counts.  Every successful run on `N` images builds a
clip list of length `N` contributing exactly `N` exposure durations
and exactly `N - 1` transition durations; the first `N - 1` entries
are dissolve composites and the last is a plain exposure clip. -/
theorem segment_counts (backend : Backend) (n : ℕ) (a t fi fo : ℚ)
    (clips : List Clip) (tr : List Action)
    (h : create_video_from_images backend n a t fi fo = (VideoResult.success clips, tr)) :
    clips.length = n ∧
    (exposureDurations clips).length = n ∧
    (transitionDurations clips).length = n - 1 ∧
    (∀ i, i < n - 1 → clips[i]? =
      some (Clip.composite i (single_image_duration n a t fi fo)
        ⟨i + 1, single_image_duration n a t fi fo, t, t⟩
        (single_image_duration n a t fi fo + t))) ∧
    clips[n - 1]? = some (Clip.plain (n - 1) (single_image_duration n a t fi fo)) := by
  obtain ⟨-, hn, -, -, hclips, -⟩ := success_inv h
  obtain ⟨m, rfl⟩ : ∃ m, n = m + 1 := ⟨n - 1, by omega⟩
  subst hclips
  refine ⟨buildClips_length _ _ _, ?_, ?_, ?_, ?_⟩
  · rw [exposureDurations_buildClips]; simp
  · rw [transitionDurations_buildClips]; simp
  · intro i hi
    exact buildClips_getElem_lt m i _ t (by omega)
  · rw [show m + 1 - 1 = m from rfl]
    exact buildClips_getElem_last m _ t

/-- C6 witness: a successful `2`-image run over `10`-second audio with
unit effects (`single_image_duration = 7/2`) has `2` exposure
segments, `1` transition segment, a leading composite and a trailing
plain clip. -/
theorem segment_counts_witness :
    [Clip.composite 0 (7/2) ⟨1, 7/2, 1, 1⟩ (7/2 + 1), Clip.plain 1 (7/2)].length = 2 ∧
    (exposureDurations
      [Clip.composite 0 (7/2) ⟨1, 7/2, 1, 1⟩ (7/2 + 1), Clip.plain 1 (7/2)]).length = 2 ∧
    (transitionDurations
      [Clip.composite 0 (7/2) ⟨1, 7/2, 1, 1⟩ (7/2 + 1), Clip.plain 1 (7/2)]).length = 2 - 1 ∧
    (∀ i, i < 2 - 1 →
      [Clip.composite 0 (7/2) ⟨1, 7/2, 1, 1⟩ (7/2 + 1), Clip.plain 1 (7/2)][i]? =
        some (Clip.composite i (single_image_duration 2 10 1 1 1)
          ⟨i + 1, single_image_duration 2 10 1 1 1, 1, 1⟩
          (single_image_duration 2 10 1 1 1 + 1))) ∧
    [Clip.composite 0 (7/2) ⟨1, 7/2, 1, 1⟩ (7/2 + 1), Clip.plain 1 (7/2)][2 - 1]? =
      some (Clip.plain (2 - 1) (single_image_duration 2 10 1 1 1)) :=
  segment_counts Backend.ok 2 10 1 1 1
    [Clip.composite 0 (7/2) ⟨1, 7/2, 1, 1⟩ (7/2 + 1), Clip.plain 1 (7/2)]
    (fullTrace 2)
    (by norm_num [create_video_from_images, single_image_duration,
      effective_video_duration, total_transition_time, buildClips, List.range_succ,
      fullTrace])

/-- C7: dissolve geometry.  In every successful run, each of the first
`N - 1` clips is the dissolve composite of image `i` (base exposure
`single_image_duration`) with image `i + 1` overlaid starting exactly
`single_image_duration` after the composite's start and lasting
`transition_duration`, and its total duration is exactly
`single_image_duration + transition_duration`. -/
theorem dissolve_geometry (backend : Backend) (n : ℕ) (a t fi fo : ℚ)
    (clips : List Clip) (tr : List Action) (i : ℕ)
    (h : create_video_from_images backend n a t fi fo = (VideoResult.success clips, tr))
    (hi : i < n - 1) :
    clips[i]? = some (Clip.composite i (single_image_duration n a t fi fo)
        ⟨i + 1, single_image_duration n a t fi fo, t, t⟩
        (single_image_duration n a t fi fo + t)) ∧
    (clips[i]?.map clipDuration) = some (single_image_duration n a t fi fo + t) ∧
    (clips[i]?.map (fun c => match c with
        | Clip.plain _ _ => none
        | Clip.composite _ _ ov _ => some (ov.image_index, ov.start, ov.duration))) =
      some (some (i + 1, single_image_duration n a t fi fo, t)) := by
  obtain ⟨-, hn, -, -, hclips, -⟩ := success_inv h
  obtain ⟨m, rfl⟩ : ∃ m, n = m + 1 := ⟨n - 1, by omega⟩
  subst hclips
  have hg := buildClips_getElem_lt m i (single_image_duration (m + 1) a t fi fo) t (by omega)
  refine ⟨hg, ?_, ?_⟩ <;> rw [hg] <;> rfl

/-- C7 witness: in the `3`-image, `10`-second run, clip `0` is the
composite of images `0` and `1` with overlay start `2`, overlay
duration `1`, and total duration `3`. -/
theorem dissolve_geometry_witness :
    [Clip.composite 0 2 ⟨1, 2, 1, 1⟩ 3, Clip.composite 1 2 ⟨2, 2, 1, 1⟩ 3,
        Clip.plain 2 2][0]? =
      some (Clip.composite 0 (single_image_duration 3 10 1 1 1)
        ⟨0 + 1, single_image_duration 3 10 1 1 1, 1, 1⟩
        (single_image_duration 3 10 1 1 1 + 1)) ∧
    ([Clip.composite 0 2 ⟨1, 2, 1, 1⟩ 3, Clip.composite 1 2 ⟨2, 2, 1, 1⟩ 3,
        Clip.plain 2 2][0]?.map clipDuration) =
      some (single_image_duration 3 10 1 1 1 + 1) ∧
    ([Clip.composite 0 2 ⟨1, 2, 1, 1⟩ 3, Clip.composite 1 2 ⟨2, 2, 1, 1⟩ 3,
        Clip.plain 2 2][0]?.map (fun c => match c with
        | Clip.plain _ _ => none
        | Clip.composite _ _ ov _ => some (ov.image_index, ov.start, ov.duration))) =
      some (some (0 + 1, single_image_duration 3 10 1 1 1, 1)) :=
  dissolve_geometry Backend.ok 3 10 1 1 1
    [Clip.composite 0 2 ⟨1, 2, 1, 1⟩ 3, Clip.composite 1 2 ⟨2, 2, 1, 1⟩ 3,
     Clip.plain 2 2]
    (fullTrace 3) 0
    (by norm_num [create_video_from_images, single_image_duration,
      effective_video_duration, total_transition_time, buildClips, List.range_succ,
      fullTrace])
    (by norm_num)

end MusicVideo

namespace MusicVideo

/-- C9: uniform failure surface.  For every backend behaviour and
every input, the run's outcome is exactly one of success, the two
planner failures, or a caught render error (never an uncaught
exception); the planner failures are reported with no rendering action
performed; a raising backend can never produce success; and when the
planner succeeds over a raising backend, the outcome is a render error
whose message appends the backend's error to the report header. -/
theorem uniform_failure_surface (backend : Backend) (n : ℕ) (a t fi fo : ℚ) :
    ((create_video_from_images backend n a t fi fo).1 = VideoResult.audioTooShort ∨
     (create_video_from_images backend n a t fi fo).1 = VideoResult.tooManyImages ∨
     (∃ msg, (create_video_from_images backend n a t fi fo).1 = VideoResult.renderError msg) ∨
     (∃ clips, (create_video_from_images backend n a t fi fo).1 = VideoResult.success clips)) ∧
    (((create_video_from_images backend n a t fi fo).1 = VideoResult.audioTooShort ∨
      (create_video_from_images backend n a t fi fo).1 = VideoResult.tooManyImages) →
      (create_video_from_images backend n a t fi fo).2 = [Action.readAudio]) ∧
    (∀ msg, backend = Backend.raises msg →
      ∀ clips, (create_video_from_images backend n a t fi fo).1 ≠ VideoResult.success clips) ∧
    (∀ msg, backend = Backend.raises msg → 0 < a - fi - fo → n ≠ 0 →
      0 < single_image_duration n a t fi fo →
      (create_video_from_images backend n a t fi fo).1 =
        VideoResult.renderError (errorHeader ++ msg)) := by
  rcases create_cases backend n a t fi fo with ⟨he, heq⟩ | ⟨he, hn, heq⟩ |
      ⟨he, hn, hs, heq⟩ | ⟨he, hn, hs, hb, heq⟩ | ⟨he, hn, hs, msg, hb, heq⟩
  · refine ⟨Or.inl (by rw [heq]), fun _ => by rw [heq], ?_, ?_⟩
    · intro msg hbe clips
      rw [heq]
      simp
    · intro msg hbe he' hn' hs'
      exact absurd he' (by simpa [effective_video_duration] using he)
  · refine ⟨Or.inr (Or.inr (Or.inl ⟨_, by rw [heq]⟩)), ?_, ?_, ?_⟩
    · intro hcon
      rw [heq] at hcon
      simp at hcon
    · intro msg hbe clips
      rw [heq]
      simp
    · intro msg hbe he' hn' hs'
      exact absurd hn hn'
  · refine ⟨Or.inr (Or.inl (by rw [heq])), fun _ => by rw [heq], ?_, ?_⟩
    · intro msg hbe clips
      rw [heq]
      simp
    · intro msg hbe he' hn' hs'
      exact absurd hs (not_le.mpr hs')
  · refine ⟨Or.inr (Or.inr (Or.inr ⟨_, by rw [heq]⟩)), ?_, ?_, ?_⟩
    · intro hcon
      rw [heq] at hcon
      simp at hcon
    · intro msg hbe
      rw [hb] at hbe
      exact absurd hbe (by simp)
    · intro msg hbe
      rw [hb] at hbe
      exact absurd hbe (by simp)
  · refine ⟨Or.inr (Or.inr (Or.inl ⟨_, by rw [heq]⟩)), ?_, ?_, ?_⟩
    · intro hcon
      rw [heq] at hcon
      simp at hcon
    · intro msg2 hbe clips
      rw [heq]
      simp
    · intro msg2 hbe he' hn' hs'
      rw [hb] at hbe
      have hmsg : msg = msg2 := by
        injection hbe
      rw [heq, hmsg]

/-- C9 witness: over a raising backend with message `boom`, the
planner-valid `2`-image, `10`-second run returns the caught render
error carrying the backend message. -/
theorem uniform_failure_surface_witness :
    (create_video_from_images (Backend.raises "boom") 2 10 1 1 1).1 =
      VideoResult.renderError (errorHeader ++ "boom") :=
  (uniform_failure_surface (Backend.raises "boom") 2 10 1 1 1).2.2.2 "boom" rfl
    (by norm_num) (by norm_num)
    (by norm_num [single_image_duration, effective_video_duration, total_transition_time])

end MusicVideo

namespace MusicVideo

lemma sid_eq (n : ℕ) (hn : n ≠ 0) (a t fi fo : ℚ) :
    single_image_duration n a t fi fo =
      (effective_video_duration a fi fo + t) / (n : ℚ) - t := by
  unfold single_image_duration total_transition_time
  have hn' : (n : ℚ) ≠ 0 := Nat.cast_ne_zero.mpr hn
  field_simp
  ring

lemma sid_strictAnti (a t fi fo : ℚ) (ht : 0 < t)
    (he : 0 < effective_video_duration a fi fo)
    {m n : ℕ} (hm : 1 ≤ m) (hmn : m < n) :
    single_image_duration n a t fi fo < single_image_duration m a t fi fo := by
  have hm0 : m ≠ 0 := by omega
  have hn0 : n ≠ 0 := by omega
  rw [sid_eq m hm0, sid_eq n hn0]
  have het : 0 < effective_video_duration a fi fo + t := by linarith
  have hmq : (0 : ℚ) < (m : ℚ) := by exact_mod_cast Nat.pos_of_ne_zero hm0
  have hmn' : (m : ℚ) < (n : ℚ) := by exact_mod_cast hmn
  have := div_lt_div_of_pos_left het hmq hmn'
  linarith

/-- C4: monotonic `TooManyImages` boundary.  For fixed audio duration
with positive effective duration and fixed positive effect durations,
`single_image_duration` is strictly decreasing in the image count, and
there is a threshold count `T ≥ 1` such that `single_image_duration ≤ 0`
exactly at the counts from `T` on, every count from `T` on fails with
`TooManyImages`, and every nonzero count below `T` succeeds. -/
theorem tooManyImages_threshold (a t fi fo : ℚ) (ht : 0 < t)
    (_hfi : 0 < fi) (_hfo : 0 < fo) (he : 0 < a - fi - fo) :
    (∀ m n : ℕ, 1 ≤ m → m < n →
      single_image_duration n a t fi fo < single_image_duration m a t fi fo) ∧
    ∃ T : ℕ, 1 ≤ T ∧
      (∀ n : ℕ, 1 ≤ n → (single_image_duration n a t fi fo ≤ 0 ↔ T ≤ n)) ∧
      (∀ n : ℕ, T ≤ n →
        (create_video_from_images Backend.ok n a t fi fo).1 = VideoResult.tooManyImages) ∧
      (∀ n : ℕ, 1 ≤ n → n < T →
        ∃ clips, (create_video_from_images Backend.ok n a t fi fo).1 =
          VideoResult.success clips) := by
  have he' : 0 < effective_video_duration a fi fo := he
  refine ⟨fun m n hm hmn => sid_strictAnti a t fi fo ht he' hm hmn, ?_⟩
  have hex : ∃ k : ℕ, 1 ≤ k ∧ single_image_duration k a t fi fo ≤ 0 := by
    obtain ⟨j, hj⟩ := exists_nat_ge ((effective_video_duration a fi fo + t) / t)
    refine ⟨j + 1, by omega, ?_⟩
    rw [sid_eq (j + 1) (by omega), sub_nonpos]
    rw [div_le_iff₀ (by positivity : (0 : ℚ) < ((j + 1 : ℕ) : ℚ))]
    rw [div_le_iff₀ ht] at hj
    have hjq : (j : ℚ) * t ≤ ((j + 1 : ℕ) : ℚ) * t := by
      have hj1 : (j : ℚ) ≤ ((j + 1 : ℕ) : ℚ) := by push_cast; linarith
      exact mul_le_mul_of_nonneg_right hj1 ht.le
    calc effective_video_duration a fi fo + t ≤ (j : ℚ) * t := hj
      _ ≤ ((j + 1 : ℕ) : ℚ) * t := hjq
      _ = t * ((j + 1 : ℕ) : ℚ) := by ring
  obtain ⟨hT1, hTs⟩ := Nat.find_spec hex
  have hsle : ∀ n : ℕ, Nat.find hex ≤ n → single_image_duration n a t fi fo ≤ 0 := by
    intro n hTn
    rcases eq_or_lt_of_le hTn with heq | hlt
    · rw [← heq]; exact hTs
    · exact le_of_lt (lt_of_lt_of_le (sid_strictAnti a t fi fo ht he' hT1 hlt) hTs)
  have hspos : ∀ n : ℕ, 1 ≤ n → n < Nat.find hex → 0 < single_image_duration n a t fi fo := by
    intro n h1 hlt
    by_contra hcon
    push_neg at hcon
    exact absurd (Nat.find_min' hex ⟨h1, hcon⟩) (by omega)
  refine ⟨Nat.find hex, hT1, ?_, ?_, ?_⟩
  · intro n hn
    exact ⟨fun hsn => Nat.find_min' hex ⟨hn, hsn⟩, hsle n⟩
  · intro n hTn
    rw [create_tooManyImages Backend.ok n a t fi fo (by omega) he' (hsle n hTn)]
  · intro n h1 hlt
    exact ⟨buildClips n (single_image_duration n a t fi fo) t, by
      rw [create_success n a t fi fo (by omega) he' (hspos n h1 hlt)]⟩

/-- C4 witness: the spec's concrete scenario `audio_duration = 5`,
unit effect durations.  The per-image duration is strictly decreasing
and a threshold (in fact `T = 4`, where `(3 - 3)/4 = 0 ≤ 0`) splits
success from `TooManyImages`. -/
theorem tooManyImages_threshold_witness :
    (∀ m n : ℕ, 1 ≤ m → m < n →
      single_image_duration n 5 1 1 1 < single_image_duration m 5 1 1 1) ∧
    ∃ T : ℕ, 1 ≤ T ∧
      (∀ n : ℕ, 1 ≤ n → (single_image_duration n 5 1 1 1 ≤ 0 ↔ T ≤ n)) ∧
      (∀ n : ℕ, T ≤ n →
        (create_video_from_images Backend.ok n 5 1 1 1).1 = VideoResult.tooManyImages) ∧
      (∀ n : ℕ, 1 ≤ n → n < T →
        ∃ clips, (create_video_from_images Backend.ok n 5 1 1 1).1 =
          VideoResult.success clips) :=
  tooManyImages_threshold 5 1 1 1 (by norm_num) (by norm_num) (by norm_num) (by norm_num)

end MusicVideo

namespace MusicVideo

/-- `os.path.join(tmpdir, uploaded_file.name)` for a relative filename:
the staging path of one uploaded file inside the temporary directory. -/
def stagedPath (dir name : String) : String := dir ++ "/" ++ name

/-- The `image_paths` list built by the button handler: one staged
path per uploaded file, in upload order. -/
def stagedPaths (dir : String) (names : List String) : List String :=
  names.map (stagedPath dir)

/-- `image_paths.sort()`: the processing order passed to
`create_video_from_images` is the ascending (lexicographic) sort of
the staged paths. -/
def processingOrder (dir : String) (names : List String) : List String :=
  (stagedPaths dir names).mergeSort

/-- The ascending sort of the uploaded filenames themselves. -/
def sortedFilenames (names : List String) : List String :=
  names.mergeSort

lemma lex_append_left_iff (p a b : List Char) :
    List.Lex (· < ·) (p ++ a) (p ++ b) ↔ List.Lex (· < ·) a b := by
  induction p with
  | nil => exact Iff.rfl
  | cons x p ih =>
    rw [List.cons_append, List.cons_append, List.Lex.cons_iff]
    exact ih

lemma stagedPath_lt_iff (dir a b : String) :
    stagedPath dir a < stagedPath dir b ↔ a < b := by
  unfold stagedPath
  have h1 : (dir ++ "/" ++ a).toList = (dir ++ "/").toList ++ a.toList :=
    String.data_append (dir ++ "/") a
  have h2 : (dir ++ "/" ++ b).toList = (dir ++ "/").toList ++ b.toList :=
    String.data_append (dir ++ "/") b
  rw [String.lt_iff_toList_lt, String.lt_iff_toList_lt, h1, h2]
  exact lex_append_left_iff (dir ++ "/").toList a.toList b.toList

lemma stagedPath_le_iff (dir a b : String) :
    stagedPath dir a ≤ stagedPath dir b ↔ a ≤ b := by
  rw [← not_lt, ← not_lt, stagedPath_lt_iff]

/-- C8: filename sort order.  The processing order is the ascending
lexicographic sort of the staged paths: it is sorted, it is a
permutation of the staged upload batch, it equals the staging of the
lexicographically sorted filenames (the common directory does not
affect the relative order), and any two upload sequences holding the
same multiset of filenames yield the identical processing order. -/
theorem filename_sort_order (dir : String) (names1 names2 : List String)
    (hperm : names1.Perm names2) :
    List.Sorted (· ≤ ·) (processingOrder dir names1) ∧
    (processingOrder dir names1).Perm (stagedPaths dir names1) ∧
    processingOrder dir names1 = stagedPaths dir (sortedFilenames names1) ∧
    processingOrder dir names1 = processingOrder dir names2 := by
  have hsorted : ∀ l : List String, List.Sorted (· ≤ ·) (processingOrder dir l) :=
    fun l => List.sorted_mergeSort' (stagedPaths dir l)
  have hp : ∀ l : List String, (processingOrder dir l).Perm (stagedPaths dir l) :=
    fun l => List.mergeSort_perm (stagedPaths dir l) _
  refine ⟨hsorted names1, hp names1, ?_, ?_⟩
  · have hsorted2 : List.Sorted (· ≤ ·) (stagedPaths dir (sortedFilenames names1)) := by
      unfold stagedPaths
      have hs := List.sorted_mergeSort' (α := String) names1
      exact List.Pairwise.map (stagedPath dir)
        (fun a b hab => (stagedPath_le_iff dir a b).mpr hab) hs
    have hperm2 : (processingOrder dir names1).Perm
        (stagedPaths dir (sortedFilenames names1)) := by
      refine (hp names1).trans ?_
      unfold stagedPaths sortedFilenames
      exact (List.mergeSort_perm names1 _).symm.map (stagedPath dir)
    exact List.eq_of_perm_of_sorted hperm2 (hsorted names1) hsorted2
  · have hperm3 : (processingOrder dir names1).Perm (processingOrder dir names2) :=
      ((hp names1).trans (hperm.map (stagedPath dir))).trans (hp names2).symm
    exact List.eq_of_perm_of_sorted hperm3 (hsorted names1) (hsorted names2)

/-- C8 witness: uploading `b.png, a.png, c.png` in any order stages
and processes them as `tmp/a.png, tmp/b.png, tmp/c.png`. -/
theorem filename_sort_order_witness :
    List.Sorted (· ≤ ·) (processingOrder "tmp" ["b.png", "a.png", "c.png"]) ∧
    (processingOrder "tmp" ["b.png", "a.png", "c.png"]).Perm
      (stagedPaths "tmp" ["b.png", "a.png", "c.png"]) ∧
    processingOrder "tmp" ["b.png", "a.png", "c.png"] =
      stagedPaths "tmp" (sortedFilenames ["b.png", "a.png", "c.png"]) ∧
    processingOrder "tmp" ["b.png", "a.png", "c.png"] =
      processingOrder "tmp" ["c.png", "b.png", "a.png"] :=
  filename_sort_order "tmp" ["b.png", "a.png", "c.png"] ["c.png", "b.png", "a.png"]
    (by decide)

end MusicVideo
